import Mathlib

/-!
# Verification of the pw-ci series/build synchronization engine

Shallow embedding of the core of `pw-ci` (Patchwork CI monitoring):
* `src/pwci/database.py` — the SQLite-backed State Store (`SeriesDatabase`),
  modelled as pure functional updates on an explicit `DB` value;
* `src/pwci/ci_providers.py` — the CI providers (`GitHubActionsProvider`,
  `TravisProvider`, `CirrusProvider`), whose generator `get_build_results`
  is modelled run-to-completion (the orchestrator in `monitor.py` always
  consumes the whole generator), returning the list of yielded outcomes and
  the final store state;
* `src/pwci/patchwork.py` — `PatchworkMonitor.emit_series`.

SQL `INT`/`BOOLEAN` columns that the code only ever writes as 0/1 are
modelled as `Bool`; nullable `TEXT` columns as `Option String`; the
dynamically chosen `<provider>_sync` column (an f-string in the SQL) as the
closed enumeration `SyncCol` of the three columns in the `git_builds`
schema.  Backend HTTP calls are modelled as function parameters returning
`Except`, with `.error` for `requests.RequestException`.
-/

/-- One row of the `series` table (schema in `SeriesDatabase._ensure_schema`). -/
structure SeriesRow where
  series_id : Nat
  series_project : String
  series_url : String
  series_submitter : String
  series_email : String
  series_submitted : Bool
  series_completed : Bool
  series_instance : String
  series_downloaded : Nat
  series_branch : Option String
  series_repo : Option String
  series_sha : Option String
deriving Repr, DecidableEq

/-- The provider sync-flag columns of the `git_builds` table.  The Python
code selects the column by the string `f"{name}_sync"`; the schema has
exactly these three. -/
inductive SyncCol
  | gap_sync
  | obs_sync
  | cirrus_sync
deriving Repr, DecidableEq

/-- One row of the `git_builds` table. -/
structure BuildRow where
  series_id : Nat
  patch_id : Nat
  patch_url : String
  patch_name : String
  sha : String
  patchwork_instance : String
  patchwork_project : String
  repo_name : String
  gap_sync : Bool
  obs_sync : Bool
  cirrus_sync : Bool
deriving Repr, DecidableEq

/-- Read the sync-flag column `c` of a build row. -/
def BuildRow.getSync (r : BuildRow) : SyncCol → Bool
  | SyncCol.gap_sync => r.gap_sync
  | SyncCol.obs_sync => r.obs_sync
  | SyncCol.cirrus_sync => r.cirrus_sync

/-- Write the sync-flag column `c` of a build row. -/
def BuildRow.setSync (r : BuildRow) (c : SyncCol) (v : Bool) : BuildRow :=
  match c with
  | SyncCol.gap_sync => { r with gap_sync := v }
  | SyncCol.obs_sync => { r with obs_sync := v }
  | SyncCol.cirrus_sync => { r with cirrus_sync := v }

/-- The persistent state (`~/.series-db`): the two tables the claims
touch.  Lists are in rowid (insertion) order, as sqlite returns them for
the unordered queries in `database.py`. -/
structure DB where
  series : List SeriesRow
  git_builds : List BuildRow
deriving Repr, DecidableEq

def DB.empty : DB := ⟨[], []⟩

/-- Stable-enough insertion sort by a `Nat` key, modelling sqlite's
`ORDER BY series_id` (ascending). -/
def insertByKey {α : Type} (key : α → Nat) (x : α) : List α → List α
  | [] => [x]
  | y :: ys => if key y ≤ key x then y :: insertByKey key x ys else x :: y :: ys

def sortByKey {α : Type} (key : α → Nat) : List α → List α
  | [] => []
  | x :: xs => insertByKey key x (sortByKey key xs)

/-- Model of `SeriesDatabase.series_exists` (database.py:112). -/
def series_exists (db : DB) (inst : String) (series_id : Nat) : Bool :=
  db.series.any fun r => r.series_id = series_id && r.series_instance = inst

/-- Model of `SeriesDatabase.add_series` (database.py:121): plain `INSERT` of a new
row with `series_submitted = False`, `series_completed = 1 if completed
else 0`, `series_downloaded = 0`; the branch/repo/sha columns are not in
the column list, so they are NULL. -/
def add_series (db : DB) (inst : String) (project : String) (series_id : Nat)
    (url : String) (submitter_name : String) (submitter_email : String)
    (completed : Bool) : DB :=
  { db with series := db.series ++
      [{ series_id := series_id
         series_project := project
         series_url := url
         series_submitter := submitter_name
         series_email := submitter_email
         series_submitted := false
         series_completed := completed
         series_instance := inst
         series_downloaded := 0
         series_branch := none
         series_repo := none
         series_sha := none }] }

/-- Model of `SeriesDatabase.get_unsubmitted_series` (database.py:136). -/
def get_unsubmitted_series (db : DB) (inst : String) (project : String) :
    List (Nat × String × String × String) :=
  (db.series.filter fun r =>
      r.series_instance = inst && r.series_project = project &&
      r.series_completed = true && r.series_submitted = false).map
    fun r => (r.series_id, r.series_url, r.series_submitter, r.series_email)

/-- Model of `SeriesDatabase.get_uncompleted_series` (database.py:147). -/
def get_uncompleted_series (db : DB) (inst : String) (project : String) :
    List (Nat × String × String × String) :=
  (db.series.filter fun r =>
      r.series_instance = inst && r.series_project = project &&
      r.series_completed = false && r.series_submitted = false &&
      r.series_downloaded = 0).map
    fun r => (r.series_id, r.series_url, r.series_submitter, r.series_email)

/-- Model of `SeriesDatabase.set_series_submitted` (database.py:159). -/
def set_series_submitted (db : DB) (inst : String) (series_id : Nat) : DB :=
  { db with series := db.series.map fun r =>
      if r.series_id = series_id && r.series_instance = inst then
        { r with series_submitted := true }
      else r }

/-- Model of `SeriesDatabase.set_series_completed` (database.py:168). -/
def set_series_completed (db : DB) (inst : String) (series_id : Nat) : DB :=
  { db with series := db.series.map fun r =>
      if r.series_id = series_id && r.series_instance = inst then
        { r with series_completed := true }
      else r }

/-- The `WHERE series_branch IS NOT NULL AND series_branch != ''` predicate
of `get_active_branches`. -/
def branchActive : Option String → Bool
  | none => false
  | some s => s ≠ ""

/-- One row of the `get_active_branches` result, in SELECT order
`series_id, series_project, series_url, series_branch, series_repo`. -/
structure ActiveBranch where
  series_id : Nat
  project : String
  series_url : String
  branchname : Option String
  travis_repo : Option String
deriving Repr, DecidableEq

/-- Model of `SeriesDatabase.get_active_branches` (database.py:177). -/
def get_active_branches (db : DB) (inst : String) : List ActiveBranch :=
  (db.series.filter fun r =>
      r.series_instance = inst && branchActive r.series_branch).map
    fun r => ⟨r.series_id, r.series_project, r.series_url, r.series_branch, r.series_repo⟩

/-- Model of `SeriesDatabase.set_series_branch` (database.py:188): sets both
`series_branch` and `series_repo` on the matching rows. -/
def set_series_branch (db : DB) (inst : String) (series_id : Nat)
    (repo : String) (branch : String) : DB :=
  { db with series := db.series.map fun r =>
      if r.series_id = series_id && r.series_instance = inst then
        { r with series_branch := some branch, series_repo := some repo }
      else r }

/-- Model of `SeriesDatabase.clear_series_branch` (database.py:197): the UPDATE sets
only `series_branch = ''`; `series_repo` is not mentioned. -/
def clear_series_branch (db : DB) (inst : String) (series_id : Nat) : DB :=
  { db with series := db.series.map fun r =>
      if r.series_id = series_id && r.series_instance = inst then
        { r with series_branch := some "" }
      else r }

/-- Model of `SeriesDatabase.get_unsynced_builds` (database.py:206):
`SELECT * FROM git_builds WHERE patchwork_instance = ? AND {ci_type} = 0
ORDER BY series_id`. -/
def get_unsynced_builds (db : DB) (inst : String) (ci_type : SyncCol) :
    List BuildRow :=
  sortByKey (fun r => r.series_id)
    (db.git_builds.filter fun r =>
      r.patchwork_instance = inst && r.getSync ci_type = false)

/-- The row update performed by `set_build_synced` on a matching row. -/
def syncUpdate (inst : String) (patch_id : Nat) (ci_type : SyncCol)
    (r : BuildRow) : BuildRow :=
  if r.patchwork_instance = inst && r.patch_id = patch_id then
    r.setSync ci_type true
  else r

/-- Model of `SeriesDatabase.set_build_synced` (database.py:216):
`UPDATE git_builds SET {ci_type} = 1 WHERE patchwork_instance = ? AND
patch_id = ?`. -/
def set_build_synced (db : DB) (inst : String) (patch_id : Nat)
    (ci_type : SyncCol) : DB :=
  { db with git_builds := db.git_builds.map (syncUpdate inst patch_id ci_type) }

/-- Model of `SeriesDatabase.insert_build` (database.py:225): INSERT with
`gap_sync, obs_sync, cirrus_sync` all 0. -/
def insert_build (db : DB) (series_id : Nat) (patch_id : Nat) (patch_url : String)
    (patch_name : String) (sha : String) (inst : String) (project : String)
    (repo_name : String) : DB :=
  { db with git_builds := db.git_builds ++
      [{ series_id := series_id
         patch_id := patch_id
         patch_url := patch_url
         patch_name := patch_name
         sha := sha
         patchwork_instance := inst
         patchwork_project := project
         repo_name := repo_name
         gap_sync := false
         obs_sync := false
         cirrus_sync := false }] }

/-- Model of `SeriesDatabase.get_patch_id_by_series_and_sha` (database.py:240). -/
def get_patch_id_by_series_and_sha (db : DB) (series_id : Nat) (sha : String)
    (inst : String) : Option Nat :=
  ((db.git_builds.filter fun r =>
      r.patchwork_instance = inst && r.series_id = series_id &&
      r.sha = sha).head?).map fun r => r.patch_id

/-- Model of `PatchworkMonitor.emit_series` (patchwork.py:108): inserts the series
only when `(instance, series_id)` is new, passing the tracker's
`received_all` through as the `completed` argument of `add_series`. -/
def emit_series (db : DB) (inst : String) (project : String) (series_id : Nat)
    (url : String) (submitter_name : String) (submitter_email : String)
    (all_received : Bool) : DB :=
  if series_exists db inst series_id then db
  else add_series db inst project series_id url submitter_name submitter_email
    all_received

/-- The §3 Series invariant predicate: `branch` and `repo` are either both
empty (NULL or the empty string) or both set. -/
def optEmpty : Option String → Bool
  | none => true
  | some s => s = ""

def branchRepoBalanced (r : SeriesRow) : Bool :=
  optEmpty r.series_branch = optEmpty r.series_repo


/-! ## Canonical Outcome and the GitHub Actions provider -/

/-- The canonical outcome dict every provider yields (§3 of the spec;
dict literals in `ci_providers.py`).  `patch_id` is `Option` because
`TravisProvider` yields `None` there; `repo_name` is `Option` because
Travis puts the (nullable) `series_repo` column value there. -/
structure Outcome where
  pw_instance : String
  series_id : Nat
  sha : String
  result : String
  build_url : String
  patch_name : String
  repo_name : Option String
  test_name : String
  patch_id : Option Nat
deriving Repr, DecidableEq

/-- The Python truthiness test `if pw_project and pw_project != p` used by
every provider's project filter: skip only when the filter is a nonempty
string different from the build's project. -/
def projectSkip (pw_project : Option String) (p : String) : Bool :=
  match pw_project with
  | none => false
  | some f => f ≠ "" && f ≠ p

/-- One element of the `workflow_runs` array of the GitHub
`GET /repos/{repo}/actions/runs` response, with the fields
`GitHubActionsProvider.get_build_results` reads.  `conclusion` is JSON
null while a run is in progress. -/
structure GhRun where
  name : String
  run_started_at : String
  status : String
  conclusion : Option String
  html_url : String
deriving Repr, DecidableEq

/-- The parsed runs-response body: `none` models a JSON object that is
falsy or lacks the `workflow_runs` key; `some rs` the `workflow_runs`
array. -/
def GhJson : Type := Option (List GhRun)

/-- Group runs by `run['name']`, names in first-occurrence order (Python
dict insertion order), each group in original list order. -/
def groupByName (runs : List GhRun) : List (String × List GhRun) :=
  runs.foldl
    (fun acc run =>
      if acc.any (fun g => g.1 = run.name) then
        acc.map fun g => if g.1 = run.name then (g.1, g.2 ++ [run]) else g
      else acc ++ [(run.name, [run])])
    []

/-- Stable descending insertion by `run_started_at`, modelling
`runs.sort(key=lambda x: x['run_started_at'], reverse=True)`. -/
def insertDescByStart (x : GhRun) : List GhRun → List GhRun
  | [] => [x]
  | y :: ys =>
    if x.run_started_at < y.run_started_at then y :: insertDescByStart x ys
    else x :: y :: ys

def sortDescByStart : List GhRun → List GhRun
  | [] => []
  | x :: xs => insertDescByStart x (sortDescByStart xs)

/-- The outcomes the inner `for workflow_name, runs in workflow_groups`
loop yields for one build: per workflow name, the latest-started run is
taken; incomplete runs are skipped; conclusion `success` maps to
`passed`, anything else to `failed`. -/
def ghYieldOutcomes (pw_instance : String) (b : BuildRow) (runs : List GhRun) :
    List Outcome :=
  (groupByName runs).foldl
    (fun acc g =>
      match sortDescByStart g.2 with
      | [] => acc
      | latest :: _ =>
        if latest.status ≠ "completed" then acc
        else
          let result := if latest.conclusion = some "success" then "passed" else "failed"
          acc ++ [{ pw_instance := pw_instance
                    series_id := b.series_id
                    sha := b.sha
                    result := result
                    build_url := latest.html_url
                    patch_name := b.patch_name
                    repo_name := some b.repo_name
                    test_name := g.1
                    patch_id := some b.patch_id }])
    []

/-- The loop state of `GitHubActionsProvider.get_build_results`: the
`prev_series` / `all_runs` / `prev_url` cache variables, plus the outcomes
yielded so far and the store. -/
structure GhSt where
  prev_series : Option Nat
  all_runs : Option GhJson
  prev_url : Option String
  outcomes : List Outcome
  db : DB

/-- The cache-refresh block (`if series_id != prev_series: ...`) of
`GitHubActionsProvider.get_build_results` (ci_providers.py:62-79).  The
fourth component is `true` when the fetch raised and the body does
`continue`.  Note the code updates `prev_series` and `prev_url` before
attempting the fetch, and refetches only when the api URL (which does not
include the branch) changed. -/
def ghRefreshCache (api_base : String) (fetch : String → String → Except Unit GhJson)
    (st : GhSt) (b : BuildRow) : Option Nat × Option GhJson × Option String × Bool :=
  if st.prev_series ≠ some b.series_id then
    let api_url := api_base ++ "/repos/" ++ b.repo_name ++ "/actions/runs"
    let branch := "series_" ++ toString b.series_id
    if st.prev_url ≠ some api_url then
      match fetch api_url branch with
      | Except.ok j => (some b.series_id, some j, some api_url, false)
      | Except.error _ => (some b.series_id, st.all_runs, some api_url, true)
    else (some b.series_id, st.all_runs, st.prev_url, false)
  else (st.prev_series, st.all_runs, st.prev_url, false)

/-- One iteration of the `for build in unsynced_builds` loop of
`GitHubActionsProvider.get_build_results` (ci_providers.py:48-136).
After the workflow loop the patch is marked synced whenever the cached
response had a nonempty `workflow_runs` list — irrespective of whether any
outcome was yielded. -/
def ghProcessBuild (api_base : String) (fetch : String → String → Except Unit GhJson)
    (pw_instance : String) (pw_project : Option String) (st : GhSt) (b : BuildRow) :
    GhSt :=
  if projectSkip pw_project b.patchwork_project then st
  else
    let c := ghRefreshCache api_base fetch st b
    let st' : GhSt := { st with prev_series := c.1, all_runs := c.2.1, prev_url := c.2.2.1 }
    if c.2.2.2 then st'
    else
      match st'.all_runs with
      | none => st'
      | some none => st'
      | some (some workflow_runs) =>
        if workflow_runs = [] then st'
        else
          { st' with
            outcomes := st'.outcomes ++ ghYieldOutcomes pw_instance b workflow_runs
            db := set_build_synced st'.db pw_instance b.patch_id SyncCol.gap_sync }

/-- Model of `GitHubActionsProvider.get_build_results`, run to completion:
the unsynced-build work queue is read once (`gap_sync` column), then the
loop folds over it; the result is the yielded outcomes in order and the
final store. -/
def gh_get_build_results (api_base : String) (fetch : String → String → Except Unit GhJson)
    (db : DB) (pw_instance : String) (pw_project : Option String) :
    List Outcome × DB :=
  let unsynced_builds := get_unsynced_builds db pw_instance SyncCol.gap_sync
  let final := unsynced_builds.foldl
    (ghProcessBuild api_base fetch pw_instance pw_project)
    ⟨none, none, none, [], db⟩
  (final.outcomes, final.db)

/-! ## The Travis (branch-keyed) provider -/

/-- One element of the Travis `builds` list, with the fields
`TravisProvider.get_build_results` reads.  `commit_sha` models
`build.get('commit', {}).get('sha', '')`: `none` when either level is
missing. -/
structure TravisBuild where
  state : String
  id : Nat
  commit_sha : Option String
deriving Repr, DecidableEq

/-- Render an optional string the way a Python f-string renders the value
(`None` for null), used for `travis_repo` in the build URL. -/
def pyShowOpt : Option String → String
  | none => "None"
  | some s => s

/-- The body of the `for build in builds` loop of
`TravisProvider.get_build_results` (ci_providers.py:163-188): states
`created`/`canceled` are skipped by `continue`, the first build whose
state is in `['failed', 'passed', 'errored']` is taken (the loop `break`s
after it), any other state just falls through to the next build. -/
def travisFirstTerminal : List TravisBuild → Option TravisBuild
  | [] => none
  | b :: rest =>
    if b.state = "created" || b.state = "canceled" then travisFirstTerminal rest
    else if b.state = "failed" || b.state = "passed" || b.state = "errored" then
      some b
    else travisFirstTerminal rest

/-- The outcome dict Travis yields for a terminal build (ci_providers.py:
167-184): `errored` collapses to `failed`, `patch_name` carries the series
URL, `patch_id` is `None`, `test_name` is empty. -/
def travisOutcome (pw_instance : String) (row : ActiveBranch) (b : TravisBuild) :
    Outcome :=
  { pw_instance := pw_instance
    series_id := row.series_id
    sha := b.commit_sha.getD ""
    result := if b.state = "errored" then "failed" else b.state
    build_url := "https://travis-ci.com/" ++ pyShowOpt row.travis_repo ++ "/builds/"
      ++ toString b.id
    patch_name := row.series_url
    repo_name := row.travis_repo
    test_name := ""
    patch_id := none }

/-- One iteration of the `for series_id, project, series_url, branchname,
travis_repo in active_branches` loop (ci_providers.py:156-192).  A
`requests.RequestException` from the branch fetch is caught and the loop
continues; on the first terminal build one outcome is yielded, the
series' branch is cleared, and the build loop breaks. -/
def travisProcessBranch (fetch : Option String → Option String → Except Unit (List TravisBuild))
    (pw_instance : String) (pw_project : Option String)
    (st : List Outcome × DB) (row : ActiveBranch) : List Outcome × DB :=
  if projectSkip pw_project row.project then st
  else
    match fetch row.travis_repo row.branchname with
    | Except.error _ => st
    | Except.ok builds =>
      match travisFirstTerminal builds with
      | none => st
      | some b =>
        (st.1 ++ [travisOutcome pw_instance row b],
         clear_series_branch st.2 pw_instance row.series_id)

/-- Model of `TravisProvider.get_build_results`, run to completion: the active
branches are read once, then the loop folds over them. -/
def travis_get_build_results
    (fetch : Option String → Option String → Except Unit (List TravisBuild))
    (db : DB) (pw_instance : String) (pw_project : Option String) :
    List Outcome × DB :=
  let active_branches := get_active_branches db pw_instance
  active_branches.foldl (travisProcessBranch fetch pw_instance pw_project) ([], db)

/-! ## The Cirrus (GraphQL) provider -/

/-- The two kinds of Python exception relevant to
`CirrusProvider.get_build_results`: `requests.RequestException` (the only
type the `except` clause catches) and the `KeyError` a subscript on a
missing field raises. -/
inductive PyErr
  | reqExc
  | keyError
deriving Repr, DecidableEq

/-- A task of a Cirrus build node; `status` is `Option` because
`task['status']` raises `KeyError` when the backend omits the field. -/
structure CirrusTask where
  name : Option String
  status : Option String
deriving Repr, DecidableEq

/-- A Cirrus build node.  `id` and `status` are read with `node['...']`
(raising on absence), `tasks` with `node.get('tasks', [])`. -/
structure CirrusNode where
  id : Option String
  status : Option String
  tasks : Option (List CirrusTask)
deriving Repr, DecidableEq

/-- An element of `builds.edges`; `edge['node']` raises on absence. -/
structure CirrusEdge where
  node : Option CirrusNode
deriving Repr, DecidableEq

/-- Required-field access `o['k']`, raising `KeyError` when absent. -/
def reqField {α : Type} : Option α → Except PyErr α
  | some x => Except.ok x
  | none => Except.error PyErr.keyError

/-- Python `s.split('/')` on the character list: splitting the empty
string gives `['']`, a separator at either end gives an empty piece. -/
def splitSlashChars : List Char → List (List Char)
  | [] => [[]]
  | c :: cs =>
    let r := splitSlashChars cs
    if c = '/' then [] :: r
    else
      match r with
      | [] => [[c]]
      | h :: t => (c :: h) :: t

/-- Python `build['repo_name'].split('/')` (ci_providers.py:258). -/
def pySplitSlash (s : String) : List String :=
  (splitSlashChars s.data).map fun l => ⟨l⟩

/-- The `for edge in builds_data` loop (ci_providers.py:277-301): scan for
the first `COMPLETED` node, compute `failed` iff any task status is
`FAILED` (evaluating every `task['status']` like the list comprehension
does), and build the outcome; non-completed nodes are passed over. -/
def cirrusScanEdges (pw_instance : String) (b : BuildRow) :
    List CirrusEdge → Except PyErr (Option Outcome)
  | [] => Except.ok none
  | e :: rest => do
    let node ← reqField e.node
    let status ← reqField node.status
    if status = "COMPLETED" then
      let statuses ← (node.tasks.getD []).mapM fun t => reqField t.status
      let result := if statuses.any (· = "FAILED") then "failed" else "passed"
      let nodeId ← reqField node.id
      Except.ok (some
        { pw_instance := pw_instance
          series_id := b.series_id
          sha := b.sha
          result := result
          build_url := "https://cirrus-ci.com/build/" ++ nodeId
          patch_name := b.patch_name
          repo_name := some b.repo_name
          test_name := "cirrus-ci"
          patch_id := some b.patch_id })
    else cirrusScanEdges pw_instance b rest

/-- The body of the `for build in unsynced_builds` loop of
`CirrusProvider.get_build_results` (ci_providers.py:226-305).  The whole
body is inside `try/except requests.RequestException`, so a network error
anywhere in it makes the loop continue; a `KeyError` is not caught and is
re-raised.  On a completed node the outcome is yielded, the build is
marked `cirrus_sync`ed and the edge loop breaks. -/
def cirrusProcessBuild (fetch : String → String → String → Except PyErr (List CirrusEdge))
    (pw_instance : String) (pw_project : Option String) (b : BuildRow) (db : DB) :
    Except PyErr (List Outcome × DB) :=
  if projectSkip pw_project b.patchwork_project then Except.ok ([], db)
  else
    let repo_parts := pySplitSlash b.repo_name
    let attempt : Except PyErr (List Outcome × DB) :=
      if repo_parts.length ≠ 2 then Except.ok ([], db)
      else
        match fetch (repo_parts.getD 0 "") (repo_parts.getD 1 "")
            ("series_" ++ toString b.series_id) with
        | Except.error e => Except.error e
        | Except.ok edges =>
          match cirrusScanEdges pw_instance b edges with
          | Except.error e => Except.error e
          | Except.ok none => Except.ok ([], db)
          | Except.ok (some o) =>
            Except.ok ([o], set_build_synced db pw_instance b.patch_id SyncCol.cirrus_sync)
    match attempt with
    | Except.error PyErr.reqExc => Except.ok ([], db)
    | Except.error PyErr.keyError => Except.error PyErr.keyError
    | Except.ok r => Except.ok r

/-- The generator loop of `CirrusProvider.get_build_results`: an uncaught
exception truncates the yielded sequence and escapes (third component). -/
def cirrusRun (fetch : String → String → String → Except PyErr (List CirrusEdge))
    (pw_instance : String) (pw_project : Option String) :
    List BuildRow → DB → List Outcome × DB × Option PyErr
  | [], db => ([], db, none)
  | b :: rest, db =>
    match cirrusProcessBuild fetch pw_instance pw_project b db with
    | Except.error e => ([], db, some e)
    | Except.ok (outs, db') =>
      let r := cirrusRun fetch pw_instance pw_project rest db'
      (outs ++ r.1, r.2.1, r.2.2)

/-- Model of `CirrusProvider.get_build_results`, run to completion. -/
def cirrus_get_build_results
    (fetch : String → String → String → Except PyErr (List CirrusEdge))
    (db : DB) (pw_instance : String) (pw_project : Option String) :
    List Outcome × DB × Option PyErr :=
  cirrusRun fetch pw_instance pw_project
    (get_unsynced_builds db pw_instance SyncCol.cirrus_sync) db


/-! ## Helper lemmas about the store operations -/

theorem mem_insertByKey {α : Type} (key : α → Nat) (x a : α) (l : List α) :
    a ∈ insertByKey key x l ↔ a = x ∨ a ∈ l := by
  induction l with
  | nil => simp [insertByKey]
  | cons y ys ih =>
    rw [insertByKey]
    by_cases hc : key y ≤ key x
    · simp only [if_pos hc, List.mem_cons, ih]
      tauto
    · simp only [if_neg hc, List.mem_cons]

theorem mem_sortByKey {α : Type} (key : α → Nat) (a : α) (l : List α) :
    a ∈ sortByKey key l ↔ a ∈ l := by
  induction l with
  | nil => simp [sortByKey]
  | cons x xs ih =>
    rw [sortByKey, mem_insertByKey, ih, List.mem_cons]

theorem pairwise_insertByKey {α : Type} (key : α → Nat) (x : α) (l : List α)
    (h : l.Pairwise fun a b => key a ≤ key b) :
    (insertByKey key x l).Pairwise fun a b => key a ≤ key b := by
  induction l with
  | nil => simp [insertByKey]
  | cons y ys ih =>
    rw [insertByKey]
    rcases List.pairwise_cons.mp h with ⟨hy, hys⟩
    by_cases hc : key y ≤ key x
    · rw [if_pos hc]
      refine List.pairwise_cons.mpr ⟨?_, ih hys⟩
      intro a ha
      rcases (mem_insertByKey key x a ys).mp ha with rfl | ha
      · exact hc
      · exact hy a ha
    · rw [if_neg hc]
      refine List.pairwise_cons.mpr ⟨?_, h⟩
      intro a ha
      have hxy : key x ≤ key y := Nat.le_of_lt (Nat.lt_of_not_le hc)
      rcases List.mem_cons.mp ha with rfl | ha
      · exact hxy
      · exact Nat.le_trans hxy (hy a ha)

theorem pairwise_sortByKey {α : Type} (key : α → Nat) (l : List α) :
    (sortByKey key l).Pairwise fun a b => key a ≤ key b := by
  induction l with
  | nil => simp [sortByKey]
  | cons x xs ih => exact pairwise_insertByKey key x _ ih

theorem mem_get_unsynced_builds (db : DB) (inst : String) (col : SyncCol)
    (r : BuildRow) :
    r ∈ get_unsynced_builds db inst col ↔
      r ∈ db.git_builds ∧ r.patchwork_instance = inst ∧ r.getSync col = false := by
  rw [get_unsynced_builds, mem_sortByKey, List.mem_filter]
  simp

theorem list_map_self {α : Type} (l : List α) (f : α → α) (h : ∀ a ∈ l, f a = a) :
    l.map f = l := by
  induction l with
  | nil => rfl
  | cons x xs ih =>
    simp only [List.map_cons]
    rw [h x (by simp), ih fun a ha => h a (by simp [ha])]

/-- Updating via `setSync` touches only the named column. -/
theorem getSync_setSync (r : BuildRow) (c c' : SyncCol) (v : Bool) :
    (r.setSync c v).getSync c' = if c' = c then v else r.getSync c' := by
  cases c <;> cases c' <;> simp [BuildRow.setSync, BuildRow.getSync]

theorem setSync_fields (r : BuildRow) (c : SyncCol) (v : Bool) :
    (r.setSync c v).series_id = r.series_id ∧
    (r.setSync c v).patch_id = r.patch_id ∧
    (r.setSync c v).patch_url = r.patch_url ∧
    (r.setSync c v).patch_name = r.patch_name ∧
    (r.setSync c v).sha = r.sha ∧
    (r.setSync c v).patchwork_instance = r.patchwork_instance ∧
    (r.setSync c v).patchwork_project = r.patchwork_project ∧
    (r.setSync c v).repo_name = r.repo_name := by
  cases c <;> simp [BuildRow.setSync]

theorem syncUpdate_fields (inst : String) (pid : Nat) (c : SyncCol) (r : BuildRow) :
    (syncUpdate inst pid c r).series_id = r.series_id ∧
    (syncUpdate inst pid c r).patch_id = r.patch_id ∧
    (syncUpdate inst pid c r).patchwork_instance = r.patchwork_instance := by
  rw [syncUpdate]
  split
  · exact ⟨(setSync_fields r c true).1, (setSync_fields r c true).2.1,
      (setSync_fields r c true).2.2.2.2.2.1⟩
  · exact ⟨rfl, rfl, rfl⟩

/-- Sync flags are monotone under `syncUpdate`. -/
theorem syncUpdate_mono (inst : String) (pid : Nat) (c c' : SyncCol) (r : BuildRow)
    (h : r.getSync c' = true) : (syncUpdate inst pid c r).getSync c' = true := by
  rw [syncUpdate]
  split
  · rw [getSync_setSync]
    split <;> simp [h]
  · exact h

/-- Applying `syncUpdate` sets the named flag on a matching row. -/
theorem syncUpdate_hits (inst : String) (pid : Nat) (c : SyncCol) (r : BuildRow)
    (h1 : r.patchwork_instance = inst) (h2 : r.patch_id = pid) :
    (syncUpdate inst pid c r).getSync c = true := by
  rw [syncUpdate, if_pos (by simp [h1, h2]), getSync_setSync, if_pos rfl]

/-! ## Claim theorems: State Store -/

/-- C7: round-trip — a build inserted by `insert_build` shows up in
`get_unsynced_builds` for that instance and any provider sync column, with
every field equal to the inserted values and all three sync flags false;
the returned sequence is sorted by ascending `series_id` and contains only
rows of that instance whose given flag is false. -/
theorem insert_build_roundtrip_unsynced (db : DB) (sid pid : Nat)
    (purl pname sha inst proj rname : String) (col : SyncCol) :
    (∃ r ∈ get_unsynced_builds
        (insert_build db sid pid purl pname sha inst proj rname) inst col,
      r.series_id = sid ∧ r.patch_id = pid ∧ r.patch_url = purl ∧
      r.patch_name = pname ∧ r.sha = sha ∧ r.patchwork_instance = inst ∧
      r.patchwork_project = proj ∧ r.repo_name = rname ∧
      r.gap_sync = false ∧ r.obs_sync = false ∧ r.cirrus_sync = false)
    ∧ (get_unsynced_builds
        (insert_build db sid pid purl pname sha inst proj rname) inst col).Pairwise
        (fun a b => a.series_id ≤ b.series_id)
    ∧ ∀ r ∈ get_unsynced_builds
        (insert_build db sid pid purl pname sha inst proj rname) inst col,
        r.getSync col = false ∧ r.patchwork_instance = inst := by
  refine ⟨?_, ?_, ?_⟩
  · refine ⟨⟨sid, pid, purl, pname, sha, inst, proj, rname, false, false, false⟩, ?_, ?_⟩
    · rw [mem_get_unsynced_builds]
      refine ⟨?_, rfl, ?_⟩
      · simp [insert_build]
      · cases col <;> rfl
    · simp
  · exact pairwise_sortByKey _ _
  · intro r hr
    have h := (mem_get_unsynced_builds _ _ _ _).mp hr
    exact ⟨h.2.2, h.2.1⟩

/-- A closed instantiation of `insert_build_roundtrip_unsynced`. -/
theorem insert_build_roundtrip_unsynced_witness :
    ∃ r ∈ get_unsynced_builds
        (insert_build DB.empty 12345 67890 "pu" "pn" "abc" "inst" "proj" "o/r")
        "inst" SyncCol.gap_sync,
      r.series_id = 12345 ∧ r.patch_id = 67890 ∧ r.patch_url = "pu" ∧
      r.patch_name = "pn" ∧ r.sha = "abc" ∧ r.patchwork_instance = "inst" ∧
      r.patchwork_project = "proj" ∧ r.repo_name = "o/r" ∧
      r.gap_sync = false ∧ r.obs_sync = false ∧ r.cirrus_sync = false :=
  (insert_build_roundtrip_unsynced DB.empty 12345 67890 "pu" "pn" "abc" "inst"
    "proj" "o/r" SyncCol.gap_sync).1

/-- C8: `set_build_synced` flips exactly the named provider's flag on the
rows matching `(instance, patch_id)`; the other sync flags and all other
fields of those rows, every non-matching build row, and the whole series
table are unchanged. -/
theorem set_build_synced_frame (db : DB) (inst : String) (pid : Nat) (col : SyncCol) :
    (set_build_synced db inst pid col).series = db.series
    ∧ (set_build_synced db inst pid col).git_builds.length = db.git_builds.length
    ∧ ∀ i, i < db.git_builds.length →
        ∃ r0 r1, db.git_builds.get? i = some r0 ∧
          (set_build_synced db inst pid col).git_builds.get? i = some r1 ∧
          ((r0.patchwork_instance = inst ∧ r0.patch_id = pid) →
            (r1.getSync col = true ∧
             (∀ c, c ≠ col → r1.getSync c = r0.getSync c) ∧
             r1.series_id = r0.series_id ∧ r1.patch_id = r0.patch_id ∧
             r1.patch_url = r0.patch_url ∧ r1.patch_name = r0.patch_name ∧
             r1.sha = r0.sha ∧ r1.patchwork_instance = r0.patchwork_instance ∧
             r1.patchwork_project = r0.patchwork_project ∧
             r1.repo_name = r0.repo_name))
          ∧ (¬(r0.patchwork_instance = inst ∧ r0.patch_id = pid) → r1 = r0) := by
  refine ⟨rfl, by simp [set_build_synced], ?_⟩
  intro i hi
  set r0 := db.git_builds.get ⟨i, hi⟩ with hdef
  have hr0 : db.git_builds.get? i = some r0 := List.get?_eq_get hi
  refine ⟨r0, syncUpdate inst pid col r0, hr0, ?_, ?_, ?_⟩
  · rw [set_build_synced]
    simp only [List.get?_map, hr0, Option.map_some']
  · intro hm
    constructor
    · exact syncUpdate_hits inst pid col r0 hm.1 hm.2
    · refine ⟨?_, ?_⟩
      · intro c hc
        rw [syncUpdate, if_pos (by simp [hm.1, hm.2]), getSync_setSync, if_neg hc]
      · rw [syncUpdate, if_pos (by simp [hm.1, hm.2])]
        have h := setSync_fields r0 col true
        exact ⟨h.1, h.2.1, h.2.2.1, h.2.2.2.1, h.2.2.2.2.1, h.2.2.2.2.2.1,
          h.2.2.2.2.2.2.1, h.2.2.2.2.2.2.2⟩
  · intro hm
    rw [syncUpdate, if_neg (by simpa using hm)]

/-- A closed instantiation of `set_build_synced_frame`. -/
theorem set_build_synced_frame_witness :
    ∃ r0 r1,
      (insert_build DB.empty 1 2 "u" "n" "s" "i" "p" "r").git_builds.get? 0 = some r0 ∧
      (set_build_synced (insert_build DB.empty 1 2 "u" "n" "s" "i" "p" "r")
        "i" 2 SyncCol.obs_sync).git_builds.get? 0 = some r1 ∧
      ((r0.patchwork_instance = "i" ∧ r0.patch_id = 2) →
        (r1.getSync SyncCol.obs_sync = true ∧
         (∀ c, c ≠ SyncCol.obs_sync → r1.getSync c = r0.getSync c) ∧
         r1.series_id = r0.series_id ∧ r1.patch_id = r0.patch_id ∧
         r1.patch_url = r0.patch_url ∧ r1.patch_name = r0.patch_name ∧
         r1.sha = r0.sha ∧ r1.patchwork_instance = r0.patchwork_instance ∧
         r1.patchwork_project = r0.patchwork_project ∧
         r1.repo_name = r0.repo_name))
      ∧ (¬(r0.patchwork_instance = "i" ∧ r0.patch_id = 2) → r1 = r0) :=
  (set_build_synced_frame (insert_build DB.empty 1 2 "u" "n" "s" "i" "p" "r")
    "i" 2 SyncCol.obs_sync).2.2 0 (by decide)

/-- C10: inserting a series whose `(instance, series_id)` already exists
adds a second independent row (no constraint, no upsert): `series_exists`
still answers true and `get_uncompleted_series` lists the series once per
inserted row. -/
theorem add_series_duplicate_rows (db : DB) (inst proj : String) (sid : Nat)
    (url1 sub1 em1 url2 sub2 em2 : String) :
    series_exists
      (add_series (add_series db inst proj sid url1 sub1 em1 false)
        inst proj sid url2 sub2 em2 false) inst sid = true
    ∧ (get_uncompleted_series
        (add_series (add_series db inst proj sid url1 sub1 em1 false)
          inst proj sid url2 sub2 em2 false) inst proj).countP
        (fun t => t.1 == sid) =
      (get_uncompleted_series db inst proj).countP (fun t => t.1 == sid) + 2 := by
  constructor
  · simp [series_exists, add_series]
  · simp [get_uncompleted_series, add_series, List.filter_append, List.countP_append]

/-- The closed language of mutating State Store operations
(`SeriesDatabase` methods that UPDATE/INSERT). -/
inductive StoreOp
  | addSeriesOp (inst proj : String) (sid : Nat) (url sub email : String)
      (completed : Bool)
  | setSeriesSubmittedOp (inst : String) (sid : Nat)
  | setSeriesCompletedOp (inst : String) (sid : Nat)
  | setSeriesBranchOp (inst : String) (sid : Nat) (repo branch : String)
  | clearSeriesBranchOp (inst : String) (sid : Nat)
  | insertBuildOp (sid pid : Nat) (purl pname sha inst proj rname : String)
  | setBuildSyncedOp (inst : String) (pid : Nat) (col : SyncCol)

def applyOp (db : DB) : StoreOp → DB
  | StoreOp.addSeriesOp inst proj sid url sub email completed =>
    add_series db inst proj sid url sub email completed
  | StoreOp.setSeriesSubmittedOp inst sid => set_series_submitted db inst sid
  | StoreOp.setSeriesCompletedOp inst sid => set_series_completed db inst sid
  | StoreOp.setSeriesBranchOp inst sid repo branch =>
    set_series_branch db inst sid repo branch
  | StoreOp.clearSeriesBranchOp inst sid => clear_series_branch db inst sid
  | StoreOp.insertBuildOp sid pid purl pname sha inst proj rname =>
    insert_build db sid pid purl pname sha inst proj rname
  | StoreOp.setBuildSyncedOp inst pid col => set_build_synced db inst pid col

theorem SeriesRow.set_completed_self (r : SeriesRow)
    (h : r.series_completed = true) : { r with series_completed := true } = r := by
  cases r
  simp_all

theorem SeriesRow.set_submitted_self (r : SeriesRow)
    (h : r.series_submitted = true) : { r with series_submitted := true } = r := by
  cases r
  simp_all

/-- C9: `series_completed` is monotone under every store operation (a row
that is completed stays completed, whichever operation runs next), and
`set_series_completed` / `set_series_submitted` are idempotent: when every
matching row already has the flag, the store is unchanged. -/
theorem series_completed_monotone_idempotent :
    (∀ (db : DB) (op : StoreOp) (i : Nat) (hi : i < db.series.length),
      (db.series.get ⟨i, hi⟩).series_completed = true →
      ∃ hi' : i < (applyOp db op).series.length,
        ((applyOp db op).series.get ⟨i, hi'⟩).series_completed = true)
    ∧ (∀ (db : DB) (inst : String) (sid : Nat),
        (∀ r ∈ db.series, r.series_id = sid ∧ r.series_instance = inst →
          r.series_completed = true) →
        set_series_completed db inst sid = db)
    ∧ (∀ (db : DB) (inst : String) (sid : Nat),
        (∀ r ∈ db.series, r.series_id = sid ∧ r.series_instance = inst →
          r.series_submitted = true) →
        set_series_submitted db inst sid = db) := by
  refine ⟨?_, ?_, ?_⟩
  · intro db op i hi hc
    cases op with
    | addSeriesOp inst proj sid url sub email completed =>
      refine ⟨by simp [applyOp, add_series]; omega, ?_⟩
      simp only [applyOp, add_series, List.get_eq_getElem]
      rw [List.getElem_append]
      simpa [hi, List.get_eq_getElem] using hc
    | setSeriesSubmittedOp inst sid =>
      refine ⟨by simpa [applyOp, set_series_submitted] using hi, ?_⟩
      simp only [applyOp, set_series_submitted, List.get_eq_getElem, List.getElem_map]
      split
      · simpa [List.get_eq_getElem] using hc
      · simpa [List.get_eq_getElem] using hc
    | setSeriesCompletedOp inst sid =>
      refine ⟨by simpa [applyOp, set_series_completed] using hi, ?_⟩
      simp only [applyOp, set_series_completed, List.get_eq_getElem, List.getElem_map]
      split
      · simp
      · simpa [List.get_eq_getElem] using hc
    | setSeriesBranchOp inst sid repo branch =>
      refine ⟨by simpa [applyOp, set_series_branch] using hi, ?_⟩
      simp only [applyOp, set_series_branch, List.get_eq_getElem, List.getElem_map]
      split
      · simpa [List.get_eq_getElem] using hc
      · simpa [List.get_eq_getElem] using hc
    | clearSeriesBranchOp inst sid =>
      refine ⟨by simpa [applyOp, clear_series_branch] using hi, ?_⟩
      simp only [applyOp, clear_series_branch, List.get_eq_getElem, List.getElem_map]
      split
      · simpa [List.get_eq_getElem] using hc
      · simpa [List.get_eq_getElem] using hc
    | insertBuildOp sid pid purl pname sha inst proj rname =>
      exact ⟨hi, hc⟩
    | setBuildSyncedOp inst pid col =>
      exact ⟨hi, hc⟩
  · intro db inst sid h
    show DB.mk _ db.git_builds = db
    rw [list_map_self]
    intro r hr
    split
    · rename_i hcond
      exact SeriesRow.set_completed_self r (h r hr (by simpa using hcond))
    · rfl
  · intro db inst sid h
    show DB.mk _ db.git_builds = db
    rw [list_map_self]
    intro r hr
    split
    · rename_i hcond
      exact SeriesRow.set_submitted_self r (h r hr (by simpa using hcond))
    · rfl

/-- A closed instantiation of `series_completed_monotone_idempotent`: a
completed row stays completed across `clear_series_branch`, and setting
`completed` twice is a no-op on an already-completed store. -/
theorem series_completed_monotone_idempotent_witness :
    (∃ hi' : 0 < (applyOp (add_series DB.empty "i" "p" 3 "u" "n" "e" true)
        (StoreOp.clearSeriesBranchOp "i" 3)).series.length,
      ((applyOp (add_series DB.empty "i" "p" 3 "u" "n" "e" true)
        (StoreOp.clearSeriesBranchOp "i" 3)).series.get ⟨0, hi'⟩).series_completed = true)
    ∧ set_series_completed (add_series DB.empty "i" "p" 3 "u" "n" "e" true) "i" 3 =
        add_series DB.empty "i" "p" 3 "u" "n" "e" true :=
  ⟨series_completed_monotone_idempotent.1
      (add_series DB.empty "i" "p" 3 "u" "n" "e" true)
      (StoreOp.clearSeriesBranchOp "i" 3) 0 (by decide) (by decide),
    series_completed_monotone_idempotent.2.1
      (add_series DB.empty "i" "p" 3 "u" "n" "e" true) "i" 3 (by decide)⟩

/-- C5 counterexample: the claim says that after `clear_series_branch`
both `branch` and `repo` are empty for the touched series.  On the code,
clearing a series whose branch/repo were set leaves `series_repo` set, so
the both-empty-or-both-set invariant fails on the touched row. -/
theorem clear_branch_leaves_repo_cex :
    ((clear_series_branch
        (set_series_branch (add_series DB.empty "i" "p" 7 "u" "n" "e" false)
          "i" 7 "repo1" "b1")
        "i" 7).series.all branchRepoBalanced) = false
    ∧ (clear_series_branch
        (set_series_branch (add_series DB.empty "i" "p" 7 "u" "n" "e" false)
          "i" 7 "repo1" "b1")
        "i" 7).series.map (fun r => (r.series_branch, r.series_repo)) =
      [(some "", some "repo1")] := by
  constructor
  · decide
  · decide

/-- C5 amended: `set_series_branch` sets both `series_branch` and
`series_repo` to the given values on every matching row, but
`clear_series_branch` empties only `series_branch`, leaving every row's
`series_repo` unchanged (so the rows it touches need not satisfy the
both-empty-or-both-set invariant afterwards). -/
theorem set_clear_branch_effects (db : DB) (inst : String) (sid : Nat)
    (repo branch : String) :
    (∀ r ∈ (set_series_branch db inst sid repo branch).series,
      r.series_id = sid ∧ r.series_instance = inst →
      r.series_branch = some branch ∧ r.series_repo = some repo)
    ∧ (clear_series_branch db inst sid).series.length = db.series.length
    ∧ ∀ i, i < db.series.length →
      ∃ r0 r1, db.series.get? i = some r0 ∧
        (clear_series_branch db inst sid).series.get? i = some r1 ∧
        r1.series_repo = r0.series_repo ∧
        ((r0.series_id = sid ∧ r0.series_instance = inst) →
          r1.series_branch = some "") ∧
        (¬(r0.series_id = sid ∧ r0.series_instance = inst) → r1 = r0) := by
  refine ⟨?_, by simp [clear_series_branch], ?_⟩
  · intro r hr hmatch
    rw [set_series_branch] at hr
    obtain ⟨r0, _, hr0⟩ := List.mem_map.mp hr
    by_cases hcond : r0.series_id = sid ∧ r0.series_instance = inst
    · rw [if_pos (by simp [hcond.1, hcond.2])] at hr0
      rw [← hr0]
      exact ⟨rfl, rfl⟩
    · rw [if_neg (by simpa using hcond)] at hr0
      subst hr0
      exact absurd hmatch hcond
  · intro i hi
    set r0 := db.series.get ⟨i, hi⟩ with hdef
    have hr0 : db.series.get? i = some r0 := List.get?_eq_get hi
    refine ⟨r0,
      if r0.series_id = sid && r0.series_instance = inst then
        { r0 with series_branch := some "" } else r0, hr0, ?_, ?_, ?_, ?_⟩
    · rw [clear_series_branch]
      simp only [List.get?_map, hr0, Option.map_some']
    · split <;> rfl
    · intro hm
      rw [if_pos (by simp [hm.1, hm.2])]
    · intro hm
      rw [if_neg (by simpa using hm)]

/-- A closed instantiation of `set_clear_branch_effects`. -/
theorem set_clear_branch_effects_witness :
    ∀ r ∈ (set_series_branch (add_series DB.empty "i" "p" 9 "u" "n" "e" false)
        "i" 9 "r9" "b9").series,
      r.series_id = 9 ∧ r.series_instance = "i" →
      r.series_branch = some "b9" ∧ r.series_repo = some "r9" :=
  (set_clear_branch_effects (add_series DB.empty "i" "p" 9 "u" "n" "e" false)
    "i" 9 "r9" "b9").1

/-- C6 counterexample: the claim says a newly discovered series is always
inserted with `completed = false` regardless of the fetched detail.  On
the code, `emit_series` passes the tracker's `received_all` through, so a
series whose detail reports `received_all = true` is inserted with
`series_completed = true`. -/
theorem emit_series_completed_from_received_all_cex :
    (emit_series DB.empty "i" "p" 5 "u" "n" "e" true).series.map
      (fun r => (r.series_completed, r.series_submitted, r.series_downloaded)) =
    [(true, false, 0)] := by decide

/-- C6 amended: a series new to `(instance, series_id)` is inserted with
`submitted = false`, `downloaded = 0`, empty branch/repo/sha — and
`completed` equal to the fetched series detail's `received_all` field
(not unconditionally false). -/
theorem emit_series_insert_fields (db : DB) (inst proj : String) (sid : Nat)
    (url nm em : String) (all_received : Bool)
    (h : series_exists db inst sid = false) :
    (emit_series db inst proj sid url nm em all_received).series =
      db.series ++
      [{ series_id := sid, series_project := proj, series_url := url,
         series_submitter := nm, series_email := em, series_submitted := false,
         series_completed := all_received, series_instance := inst,
         series_downloaded := 0, series_branch := none, series_repo := none,
         series_sha := none }] := by
  rw [emit_series, if_neg (by simp [h])]
  rfl

/-- A closed instantiation of `emit_series_insert_fields`. -/
theorem emit_series_insert_fields_witness :
    (emit_series DB.empty "i2" "p2" 6 "u2" "n2" "e2" false).series =
      [{ series_id := 6, series_project := "p2", series_url := "u2",
         series_submitter := "n2", series_email := "e2",
         series_submitted := false, series_completed := false,
         series_instance := "i2", series_downloaded := 0,
         series_branch := none, series_repo := none, series_sha := none }] := by
  have h := emit_series_insert_fields DB.empty "i2" "p2" 6 "u2" "n2" "e2" false
    (by decide)
  simpa using h

/-! ## Claim theorems: GitHub Actions provider -/

theorem mem_ghYieldOutcomes (pw_instance : String) (b : BuildRow)
    (runs : List GhRun) :
    ∀ o ∈ ghYieldOutcomes pw_instance b runs,
      o.patch_id = some b.patch_id ∧ o.pw_instance = pw_instance := by
  rw [ghYieldOutcomes]
  generalize groupByName runs = gs
  have aux : ∀ (gs' : List (String × List GhRun)) (acc : List Outcome),
      (∀ o ∈ acc, o.patch_id = some b.patch_id ∧ o.pw_instance = pw_instance) →
      ∀ o ∈ gs'.foldl (fun acc g =>
          match sortDescByStart g.2 with
          | [] => acc
          | latest :: _ =>
            if latest.status ≠ "completed" then acc
            else
              let result := if latest.conclusion = some "success" then "passed"
                else "failed"
              acc ++ [{ pw_instance := pw_instance, series_id := b.series_id,
                        sha := b.sha, result := result,
                        build_url := latest.html_url, patch_name := b.patch_name,
                        repo_name := some b.repo_name, test_name := g.1,
                        patch_id := some b.patch_id }]) acc,
        o.patch_id = some b.patch_id ∧ o.pw_instance = pw_instance := by
    intro gs'
    induction gs' with
    | nil => intro acc hacc o ho; exact hacc o ho
    | cons g gs'' ih =>
      intro acc hacc o ho
      refine ih _ ?_ o ho
      intro o' ho'
      dsimp only at ho'
      rcases hg : sortDescByStart g.2 with _ | ⟨latest, rest⟩
      · rw [hg] at ho'
        exact hacc o' ho'
      · rw [hg] at ho'
        dsimp only at ho'
        by_cases hs : latest.status ≠ "completed"
        · rw [if_pos hs] at ho'
          exact hacc o' ho'
        · rw [if_neg hs] at ho'
          rcases List.mem_append.mp ho' with h | h
          · exact hacc o' h
          · rcases List.mem_singleton.mp h with rfl
            exact ⟨rfl, rfl⟩
  exact aux gs [] (by intro o ho; cases ho)

/-- Step analysis of one `ghProcessBuild` iteration: either the store and
the yielded outcomes are untouched, or the patch is marked synced and the
new outcomes (possibly none) all carry this build's `patch_id`. -/
theorem ghProcessBuild_spec (api_base : String)
    (fetch : String → String → Except Unit GhJson) (inst : String)
    (proj : Option String) (st : GhSt) (b : BuildRow) :
    ((ghProcessBuild api_base fetch inst proj st b).db = st.db ∧
     (ghProcessBuild api_base fetch inst proj st b).outcomes = st.outcomes)
    ∨ ((ghProcessBuild api_base fetch inst proj st b).db =
        set_build_synced st.db inst b.patch_id SyncCol.gap_sync ∧
       ∃ outs, (ghProcessBuild api_base fetch inst proj st b).outcomes =
          st.outcomes ++ outs ∧
         ∀ o ∈ outs, o.patch_id = some b.patch_id ∧ o.pw_instance = inst) := by
  by_cases h1 : projectSkip proj b.patchwork_project
  · left
    rw [ghProcessBuild, if_pos h1]
    exact ⟨rfl, rfl⟩
  · rcases hc : ghRefreshCache api_base fetch st b with ⟨c1, c2, c3, c4⟩
    cases c4 with
    | true =>
      left
      constructor <;> simp [ghProcessBuild, hc, h1]
    | false =>
      match c2 with
      | none =>
        left
        constructor <;> simp [ghProcessBuild, hc, h1]
      | some none =>
        left
        constructor <;> simp [ghProcessBuild, hc, h1]
      | some (some workflow_runs) =>
        by_cases hw : workflow_runs = []
        · left
          constructor <;> simp [ghProcessBuild, hc, h1, hw]
        · right
          refine ⟨?_, ghYieldOutcomes inst b workflow_runs, ?_,
            mem_ghYieldOutcomes inst b workflow_runs⟩
          · simp [ghProcessBuild, hc, h1, hw]
          · simp [ghProcessBuild, hc, h1, hw]

/-- The at-most-once invariant for the GitHub provider fold: every
outcome yielded so far has its `(instance, patch_id)` rows marked
`gap_sync` in the current store. -/
def GhInv (inst : String) (st : GhSt) : Prop :=
  ∀ o ∈ st.outcomes, ∀ r ∈ st.db.git_builds,
    r.patchwork_instance = inst → some r.patch_id = o.patch_id →
    r.getSync SyncCol.gap_sync = true

theorem ghProcessBuild_inv (api_base : String)
    (fetch : String → String → Except Unit GhJson) (inst : String)
    (proj : Option String) (st : GhSt) (b : BuildRow) (h : GhInv inst st) :
    GhInv inst (ghProcessBuild api_base fetch inst proj st b) := by
  rcases ghProcessBuild_spec api_base fetch inst proj st b with
    ⟨hdb, hout⟩ | ⟨hdb, outs, hout, houts⟩
  · intro o ho r hr hrinst hpid
    rw [hout] at ho
    rw [hdb] at hr
    exact h o ho r hr hrinst hpid
  · intro o ho r hr hrinst hpid
    rw [hdb, set_build_synced] at hr
    obtain ⟨r0, hr0mem, hr0eq⟩ := List.mem_map.mp hr
    have hfields := syncUpdate_fields inst b.patch_id SyncCol.gap_sync r0
    rw [hout] at ho
    rcases List.mem_append.mp ho with hmem | hmem
    · have hr0inst : r0.patchwork_instance = inst := by
        rw [← hfields.2.2, hr0eq]; exact hrinst
      have hr0pid : some r0.patch_id = o.patch_id := by
        rw [← hfields.2.1, hr0eq]; exact hpid
      have := h o hmem r0 hr0mem hr0inst hr0pid
      rw [← hr0eq]
      exact syncUpdate_mono inst b.patch_id SyncCol.gap_sync SyncCol.gap_sync r0 this
    · have hopid := (houts o hmem).1
      have hr0inst : r0.patchwork_instance = inst := by
        rw [← hfields.2.2, hr0eq]; exact hrinst
      have hr0pid : r0.patch_id = b.patch_id := by
        have : some r0.patch_id = some b.patch_id := by
          rw [← hfields.2.1, hr0eq, hpid, hopid]
        exact Option.some.inj this
      rw [← hr0eq]
      exact syncUpdate_hits inst b.patch_id SyncCol.gap_sync r0 hr0inst hr0pid

theorem gh_foldl_inv (api_base : String)
    (fetch : String → String → Except Unit GhJson) (inst : String)
    (proj : Option String) :
    ∀ (bs : List BuildRow) (st : GhSt), GhInv inst st →
      GhInv inst (bs.foldl (ghProcessBuild api_base fetch inst proj) st) := by
  intro bs
  induction bs with
  | nil => intro st h; exact h
  | cons b rest ih =>
    intro st h
    exact ih _ (ghProcessBuild_inv api_base fetch inst proj st b h)

theorem gh_foldl_prov (api_base : String)
    (fetch : String → String → Except Unit GhJson) (inst : String)
    (proj : Option String) :
    ∀ (bs : List BuildRow) (st : GhSt),
      ∀ o ∈ (bs.foldl (ghProcessBuild api_base fetch inst proj) st).outcomes,
        o ∈ st.outcomes ∨ ∃ b ∈ bs, o.patch_id = some b.patch_id := by
  intro bs
  induction bs with
  | nil => intro st o ho; exact Or.inl ho
  | cons b rest ih =>
    intro st o ho
    rcases ih (ghProcessBuild api_base fetch inst proj st b) o ho with h | ⟨b', hb', hp⟩
    · rcases ghProcessBuild_spec api_base fetch inst proj st b with
        ⟨_, hout⟩ | ⟨_, outs, hout, houts⟩
      · rw [hout] at h
        exact Or.inl h
      · rw [hout] at h
        rcases List.mem_append.mp h with h | h
        · exact Or.inl h
        · exact Or.inr ⟨b, List.mem_cons_self b rest, (houts o h).1⟩
    · exact Or.inr ⟨b', List.mem_cons_of_mem b hb', hp⟩

/-- C1: if the GitHub Actions provider's `get_build_results` yields an
outcome for a build, then after the run `get_unsynced_builds` for that
instance and the `gap_sync` column contains no row with that patch id,
and a further run over the resulting store (with any backend responses
and project filter) never yields an outcome with the same
`(series_id, patch_id)` again. -/
theorem gh_yield_marks_synced_at_most_once (api_base : String)
    (fetch fetch2 : String → String → Except Unit GhJson) (db : DB)
    (inst : String) (proj proj2 : Option String) (o : Outcome)
    (ho : o ∈ (gh_get_build_results api_base fetch db inst proj).1) :
    (∀ r ∈ get_unsynced_builds
        (gh_get_build_results api_base fetch db inst proj).2 inst SyncCol.gap_sync,
      some r.patch_id ≠ o.patch_id)
    ∧ ∀ o' ∈ (gh_get_build_results api_base fetch2
        (gh_get_build_results api_base fetch db inst proj).2 inst proj2).1,
        (o'.series_id, o'.patch_id) ≠ (o.series_id, o.patch_id) := by
  have hinv : GhInv inst
      ((get_unsynced_builds db inst SyncCol.gap_sync).foldl
        (ghProcessBuild api_base fetch inst proj) ⟨none, none, none, [], db⟩) :=
    gh_foldl_inv api_base fetch inst proj _ _ (by intro o' ho' _ _ _ _; cases ho')
  have hpart1 : ∀ r ∈ get_unsynced_builds
      (gh_get_build_results api_base fetch db inst proj).2 inst SyncCol.gap_sync,
      some r.patch_id ≠ o.patch_id := by
    intro r hr heq
    have hmem := (mem_get_unsynced_builds _ _ _ _).mp hr
    have := hinv o ho r hmem.1 hmem.2.1 heq
    rw [hmem.2.2] at this
    cases this
  refine ⟨hpart1, ?_⟩
  intro o' ho' heq
  rcases gh_foldl_prov api_base fetch2 inst proj2
      (get_unsynced_builds (gh_get_build_results api_base fetch db inst proj).2
        inst SyncCol.gap_sync) ⟨none, none, none, [],
        (gh_get_build_results api_base fetch db inst proj).2⟩ o' ho' with
    h | ⟨b, hb, hp⟩
  · cases h
  · have hpid : o'.patch_id = o.patch_id := congrArg Prod.snd heq
    exact hpart1 b hb (by rw [← hpid, hp])

/-- A closed instantiation of `gh_yield_marks_synced_at_most_once`: a
single unsynced build whose backend reports one completed successful run. -/
theorem gh_yield_marks_synced_at_most_once_witness :
    (∀ r ∈ get_unsynced_builds
        (gh_get_build_results "https://api.github.com"
          (fun _ _ => Except.ok (some [⟨"Build", "2024-01-01T00:00:00Z",
            "completed", some "success", "http://b"⟩]))
          (insert_build DB.empty 1000 100001 "pu" "pn" "abc" "inst" "proj" "o/r")
          "inst" none).2 "inst" SyncCol.gap_sync,
      some r.patch_id ≠ some 100001)
    ∧ ∀ o' ∈ (gh_get_build_results "https://api.github.com"
        (fun _ _ => Except.ok (some [⟨"Build", "2024-01-01T00:00:00Z",
          "completed", some "success", "http://b"⟩]))
        (gh_get_build_results "https://api.github.com"
          (fun _ _ => Except.ok (some [⟨"Build", "2024-01-01T00:00:00Z",
            "completed", some "success", "http://b"⟩]))
          (insert_build DB.empty 1000 100001 "pu" "pn" "abc" "inst" "proj" "o/r")
          "inst" none).2 "inst" none).1,
        (o'.series_id, o'.patch_id) ≠ (1000, some 100001) :=
  gh_yield_marks_synced_at_most_once "https://api.github.com"
    (fun _ _ => Except.ok (some [⟨"Build", "2024-01-01T00:00:00Z",
      "completed", some "success", "http://b"⟩]))
    (fun _ _ => Except.ok (some [⟨"Build", "2024-01-01T00:00:00Z",
      "completed", some "success", "http://b"⟩]))
    (insert_build DB.empty 1000 100001 "pu" "pn" "abc" "inst" "proj" "o/r")
    "inst" none none
    { pw_instance := "inst", series_id := 1000, sha := "abc", result := "passed",
      build_url := "http://b", patch_name := "pn", repo_name := some "o/r",
      test_name := "Build", patch_id := some 100001 }
    (by decide)

/-- C2: the claim says an unsynced build whose runs are all still
in-flight yields nothing and keeps its sync flag unset.  The code does
yield nothing, but `GitHubActionsProvider.get_build_results` marks the
patch synced anyway (ci_providers.py:136 runs after the workflow loop
whenever `workflow_runs` is nonempty), so the build leaves the work queue
with its result never reported: with one unsynced build and a backend
reporting a single `in_progress` run, the run yields no outcome yet the
final store has `gap_sync = true` and the work queue is empty. -/
theorem gh_inflight_marks_synced_bug :
    (gh_get_build_results "https://api.github.com"
      (fun _ _ => Except.ok (some [⟨"Build", "2024-01-01T00:00:00Z",
        "in_progress", none, "http://b"⟩]))
      (insert_build DB.empty 1000 100001 "pu" "pn" "abc" "inst" "proj" "o/r")
      "inst" none).1 = []
    ∧ ((gh_get_build_results "https://api.github.com"
        (fun _ _ => Except.ok (some [⟨"Build", "2024-01-01T00:00:00Z",
          "in_progress", none, "http://b"⟩]))
        (insert_build DB.empty 1000 100001 "pu" "pn" "abc" "inst" "proj" "o/r")
        "inst" none).2.git_builds.map fun r => r.gap_sync) = [true]
    ∧ get_unsynced_builds
        (gh_get_build_results "https://api.github.com"
          (fun _ _ => Except.ok (some [⟨"Build", "2024-01-01T00:00:00Z",
            "in_progress", none, "http://b"⟩]))
          (insert_build DB.empty 1000 100001 "pu" "pn" "abc" "inst" "proj" "o/r")
          "inst" none).2 "inst" SyncCol.gap_sync = [] := by
  refine ⟨by decide, by decide, by decide⟩

/-! ## Claim theorems: Travis provider -/

theorem travisProcessBranch_cases
    (fetch : Option String → Option String → Except Unit (List TravisBuild))
    (inst : String) (proj : Option String) (st : List Outcome × DB)
    (row : ActiveBranch) :
    travisProcessBranch fetch inst proj st row = st ∨
    ∃ tb, travisProcessBranch fetch inst proj st row =
      (st.1 ++ [travisOutcome inst row tb],
       clear_series_branch st.2 inst row.series_id) := by
  rw [travisProcessBranch]
  by_cases h1 : projectSkip proj row.project
  · rw [if_pos h1]
    exact Or.inl rfl
  · rw [if_neg h1]
    rcases hf : fetch row.travis_repo row.branchname with e | bs
    · exact Or.inl rfl
    · dsimp only
      rcases hs : travisFirstTerminal bs with _ | tb
      · exact Or.inl rfl
      · exact Or.inr ⟨tb, rfl⟩

theorem travisProcessBranch_yield
    (fetch : Option String → Option String → Except Unit (List TravisBuild))
    (inst : String) (proj : Option String) (st : List Outcome × DB)
    (row : ActiveBranch) (bs : List TravisBuild) (tb : TravisBuild)
    (h1 : projectSkip proj row.project = false)
    (h2 : fetch row.travis_repo row.branchname = Except.ok bs)
    (h3 : travisFirstTerminal bs = some tb) :
    travisProcessBranch fetch inst proj st row =
      (st.1 ++ [travisOutcome inst row tb],
       clear_series_branch st.2 inst row.series_id) := by
  rw [travisProcessBranch, if_neg (by simp [h1]), h2]
  dsimp only
  rw [h3]

theorem travis_foldl_filter_ne
    (fetch : Option String → Option String → Except Unit (List TravisBuild))
    (inst : String) (proj : Option String) (s : Nat) :
    ∀ (rows : List ActiveBranch) (st : List Outcome × DB),
      (∀ row ∈ rows, row.series_id ≠ s) →
      ((rows.foldl (travisProcessBranch fetch inst proj) st).1.filter
        fun o => o.series_id == s) = st.1.filter fun o => o.series_id == s := by
  intro rows
  induction rows with
  | nil => intro st _; rfl
  | cons row rest ih =>
    intro st h
    rw [List.foldl_cons]
    rw [ih _ fun r hr => h r (List.mem_cons_of_mem row hr)]
    rcases travisProcessBranch_cases fetch inst proj st row with heq | ⟨tb, heq⟩
    · rw [heq]
    · rw [heq]
      have hne : row.series_id ≠ s := h row (List.mem_cons_self row rest)
      simp [List.filter_append, travisOutcome, hne]

/-- After a run, a series whose matching rows all have the branch cleared
stays that way: the Travis loop only ever clears branches. -/
def SeriesInactive (inst : String) (s : Nat) (db : DB) : Prop :=
  ∀ r ∈ db.series, r.series_id = s → r.series_instance = inst →
    r.series_branch = some ""

theorem clear_series_branch_establishes (db : DB) (inst : String) (s : Nat) :
    SeriesInactive inst s (clear_series_branch db inst s) := by
  intro r hr hid hinst
  rw [clear_series_branch] at hr
  obtain ⟨r0, _, hr0⟩ := List.mem_map.mp hr
  by_cases hcond : r0.series_id = s ∧ r0.series_instance = inst
  · rw [if_pos (by simp [hcond.1, hcond.2])] at hr0
    rw [← hr0]
  · rw [if_neg (by simpa using hcond)] at hr0
    subst hr0
    exact absurd ⟨hid, hinst⟩ hcond

theorem clear_series_branch_preserves (db : DB) (inst inst' : String) (s s' : Nat)
    (h : SeriesInactive inst s db) :
    SeriesInactive inst s (clear_series_branch db inst' s') := by
  intro r hr hid hinst
  rw [clear_series_branch] at hr
  obtain ⟨r0, hr0mem, hr0⟩ := List.mem_map.mp hr
  by_cases hcond : r0.series_id = s' ∧ r0.series_instance = inst'
  · rw [if_pos (by simp [hcond.1, hcond.2])] at hr0
    rw [← hr0]
  · rw [if_neg (by simpa using hcond)] at hr0
    subst hr0
    exact h r0 hr0mem hid hinst

theorem travis_foldl_preserves_inactive
    (fetch : Option String → Option String → Except Unit (List TravisBuild))
    (inst : String) (proj : Option String) (s : Nat) :
    ∀ (rows : List ActiveBranch) (st : List Outcome × DB),
      SeriesInactive inst s st.2 →
      SeriesInactive inst s
        ((rows.foldl (travisProcessBranch fetch inst proj) st).2) := by
  intro rows
  induction rows with
  | nil => intro st h; exact h
  | cons row rest ih =>
    intro st h
    rw [List.foldl_cons]
    refine ih _ ?_
    rcases travisProcessBranch_cases fetch inst proj st row with heq | ⟨tb, heq⟩
    · rw [heq]; exact h
    · rw [heq]
      exact clear_series_branch_preserves st.2 inst inst s row.series_id h

theorem travis_run_eq
    (fetch : Option String → Option String → Except Unit (List TravisBuild))
    (db : DB) (inst : String) (proj : Option String) :
    travis_get_build_results fetch db inst proj =
      (get_active_branches db inst).foldl (travisProcessBranch fetch inst proj)
        ([], db) := rfl

/-- C3: for the branch-keyed Travis provider, given an active branch whose
backend build list has a terminal build, the run yields exactly one
outcome for that series — built from the first terminal build found, with
state `errored` collapsed to result `failed` — and the series' branch
marker is cleared so `get_active_branches` on the resulting store no
longer returns that series.  (The distinct-`series_id` hypothesis is the
§3 invariant that `(instance, series_id)` identifies a series.) -/
theorem travis_first_terminal_clears_branch
    (fetch : Option String → Option String → Except Unit (List TravisBuild))
    (db : DB) (inst : String) (ab : ActiveBranch) (bs : List TravisBuild)
    (tb : TravisBuild)
    (hab : ab ∈ get_active_branches db inst)
    (hdist : (get_active_branches db inst).Pairwise
      fun a b => a.series_id ≠ b.series_id)
    (hfetch : fetch ab.travis_repo ab.branchname = Except.ok bs)
    (hterm : travisFirstTerminal bs = some tb) :
    ((travis_get_build_results fetch db inst none).1.filter
        fun o => o.series_id == ab.series_id) = [travisOutcome inst ab tb]
    ∧ (travisOutcome inst ab tb).result =
        (if tb.state = "errored" then "failed" else tb.state)
    ∧ ∀ abr ∈ get_active_branches
        (travis_get_build_results fetch db inst none).2 inst,
        abr.series_id ≠ ab.series_id := by
  obtain ⟨l1, l2, hsplit⟩ := List.append_of_mem hab
  rw [hsplit] at hdist
  have h12 := List.pairwise_append.mp hdist
  have hl1 : ∀ x ∈ l1, x.series_id ≠ ab.series_id :=
    fun x hx => h12.2.2 x hx ab (List.mem_cons_self ab l2)
  have hl2 : ∀ y ∈ l2, y.series_id ≠ ab.series_id :=
    fun y hy => Ne.symm ((List.pairwise_cons.mp h12.2.1).1 y hy)
  have hrun : travis_get_build_results fetch db inst none =
      l2.foldl (travisProcessBranch fetch inst none)
        (travisProcessBranch fetch inst none
          (l1.foldl (travisProcessBranch fetch inst none) ([], db)) ab) := by
    rw [travis_run_eq, hsplit, List.foldl_append, List.foldl_cons]
  have hyield := travisProcessBranch_yield fetch inst none
    (l1.foldl (travisProcessBranch fetch inst none) ([], db)) ab bs tb rfl
    hfetch hterm
  refine ⟨?_, rfl, ?_⟩
  · rw [hrun, travis_foldl_filter_ne fetch inst none ab.series_id l2 _ hl2,
      hyield]
    have hst1 : ((l1.foldl (travisProcessBranch fetch inst none) ([], db)).1.filter
        fun o => o.series_id == ab.series_id) = [] :=
      travis_foldl_filter_ne fetch inst none ab.series_id l1 ([], db) hl1
    simp [List.filter_append, hst1, travisOutcome]
  · have hinact : SeriesInactive inst ab.series_id
        (travis_get_build_results fetch db inst none).2 := by
      rw [hrun]
      refine travis_foldl_preserves_inactive fetch inst none ab.series_id l2 _ ?_
      rw [hyield]
      exact clear_series_branch_establishes _ inst ab.series_id
    intro abr habr heq
    rw [get_active_branches] at habr
    obtain ⟨r, hrmem, hreq⟩ := List.mem_map.mp habr
    have hrfilt := List.mem_filter.mp hrmem
    have hrcond : r.series_instance = inst ∧ branchActive r.series_branch = true := by
      simpa using hrfilt.2
    have hrid : r.series_id = ab.series_id := by
      rw [← heq, ← hreq]
    have hbranch := hinact r hrfilt.1 hrid hrcond.1
    rw [hbranch] at hrcond
    simpa [branchActive] using hrcond.2

/-- A closed instantiation of `travis_first_terminal_clears_branch`: one
active branch, backend reports a single `errored` build. -/
theorem travis_first_terminal_clears_branch_witness :
    ((travis_get_build_results
        (fun _ _ => Except.ok [⟨"errored", 42, some "abcsha"⟩])
        (set_series_branch (add_series DB.empty "inst" "proj" 7 "u" "n" "e" true)
          "inst" 7 "o/r" "series_7")
        "inst" none).1.filter fun o => o.series_id == 7) =
      [travisOutcome "inst" ⟨7, "proj", "u", some "series_7", some "o/r"⟩
        ⟨"errored", 42, some "abcsha"⟩]
    ∧ (travisOutcome "inst" ⟨7, "proj", "u", some "series_7", some "o/r"⟩
        ⟨"errored", 42, some "abcsha"⟩).result =
        (if ("errored" : String) = "errored" then "failed" else "errored")
    ∧ ∀ abr ∈ get_active_branches
        (travis_get_build_results
          (fun _ _ => Except.ok [⟨"errored", 42, some "abcsha"⟩])
          (set_series_branch (add_series DB.empty "inst" "proj" 7 "u" "n" "e" true)
            "inst" 7 "o/r" "series_7")
          "inst" none).2 "inst",
        abr.series_id ≠ 7 :=
  travis_first_terminal_clears_branch
    (fun _ _ => Except.ok [⟨"errored", 42, some "abcsha"⟩])
    (set_series_branch (add_series DB.empty "inst" "proj" 7 "u" "n" "e" true)
      "inst" 7 "o/r" "series_7")
    "inst" ⟨7, "proj", "u", some "series_7", some "o/r"⟩
    [⟨"errored", 42, some "abcsha"⟩] ⟨"errored", 42, some "abcsha"⟩
    (by decide) (by decide) rfl (by decide)

/-! ## Claim theorems: Cirrus provider and failure semantics -/

/-- C4 counterexample: the claim says an error from the backend —
including a response with unexpected/missing fields — aborts only the
current unit and never escapes `get_build_results`.  On the code, the
`except` clause catches only `requests.RequestException`; with one
unsynced build and a Cirrus response whose build node lacks the `status`
field, `node['status']` raises `KeyError`, which escapes the generator. -/
theorem cirrus_keyerror_escapes_cex :
    (cirrus_get_build_results
      (fun _ _ _ => Except.ok [⟨some ⟨some "bid", none, some []⟩⟩])
      (insert_build DB.empty 1000 100001 "pu" "pn" "abc" "inst" "proj" "o/r")
      "inst" none).2.2 = some PyErr.keyError := by decide

/-- C4 amended: a *network* error (`requests.RequestException`) while
processing one build aborts that build only — the loop continues with the
remaining builds from an unchanged store, no sync flag is marked for the
failed build, and the error does not escape; but an unexpected/missing
field in a response raises an uncaught exception that escapes
`get_build_results` to its caller (see `cirrus_keyerror_escapes_cex`). -/
theorem cirrus_network_error_skips_unit
    (fetch : String → String → String → Except PyErr (List CirrusEdge))
    (inst : String) (proj : Option String) (b : BuildRow)
    (rest : List BuildRow) (db : DB) (ow nm : String)
    (hsplit : pySplitSlash b.repo_name = [ow, nm])
    (hfetch : fetch ow nm ("series_" ++ toString b.series_id) =
      Except.error PyErr.reqExc) :
    cirrusRun fetch inst proj (b :: rest) db = cirrusRun fetch inst proj rest db := by
  have hpb : cirrusProcessBuild fetch inst proj b db = Except.ok ([], db) := by
    rw [cirrusProcessBuild]
    by_cases h1 : projectSkip proj b.patchwork_project
    · rw [if_pos h1]
    · rw [if_neg h1]
      simp [hsplit, hfetch]
  rw [cirrusRun, hpb]
  dsimp only
  rw [List.nil_append]

/-- A closed instantiation of `cirrus_network_error_skips_unit`. -/
theorem cirrus_network_error_skips_unit_witness :
    cirrusRun (fun _ _ _ => Except.error PyErr.reqExc) "inst" none
      ((insert_build DB.empty 1000 100001 "pu" "pn" "abc" "inst" "proj"
        "o/r").git_builds ++
        (insert_build DB.empty 1001 100101 "pu2" "pn2" "abc2" "inst" "proj"
          "d/d").git_builds)
      DB.empty =
    cirrusRun (fun _ _ _ => Except.error PyErr.reqExc) "inst" none
      (insert_build DB.empty 1001 100101 "pu2" "pn2" "abc2" "inst" "proj"
        "d/d").git_builds
      DB.empty :=
  cirrus_network_error_skips_unit (fun _ _ _ => Except.error PyErr.reqExc)
    "inst" none
    ⟨1000, 100001, "pu", "pn", "abc", "inst", "proj", "o/r", false, false, false⟩
    (insert_build DB.empty 1001 100101 "pu2" "pn2" "abc2" "inst" "proj"
      "d/d").git_builds
    DB.empty "o" "r" (by decide) rfl
